import Mathlib

/-!
A verification development for the Alice chatbot's context/memory subsystem.

The Python sources are shallowly embedded: Python strings become lists of
characters (`Str`), Python `re` patterns become values of a small regex
type `Re` matched with Python's backtracking priority, Python floats become
rationals, `datetime` instants become natural-number clock readings, and the
JSON-file repository becomes an association list from file name to stored
record. Every definition mirrors the corresponding Python function; theorems
then settle the specification's claims about extraction, scoring, context
assembly, analysis, the turn cycle and persistence.
-/

set_option maxRecDepth 10000

/-- Python strings are sequences of code points; we embed them as `List Char`. -/
abbrev Str := List Char

/-- Convert a Lean string literal to the embedded string type. -/
def txt (s : String) : Str := s.data

/-- Python `str.lower`, restricted to ASCII case folding (all text handled by
the program's patterns and keyword tables is ASCII). -/
def pyLower (s : Str) : Str := s.map Char.toLower

/-- The characters Python's `\s` class and `str.strip`/`str.split` treat as
whitespace (ASCII range). -/
def isPySpace (c : Char) : Bool :=
  c == ' ' || c == '\t' || c == '\n' || c == '\r' || c == '\x0b' || c == '\x0c'

/-- Python `str.strip()`: remove leading and trailing whitespace. -/
def pyStrip (s : Str) : Str :=
  ((s.dropWhile isPySpace).reverse.dropWhile isPySpace).reverse

/-- Helper for `pySplit`: the first component is the accumulator of the current
word, kept reversed. -/
def pySplitGo : Str → Str → List Str
  | acc, [] => if acc.isEmpty then [] else [acc.reverse]
  | acc, c :: cs =>
    if isPySpace c then
      if acc.isEmpty then pySplitGo [] cs else acc.reverse :: pySplitGo [] cs
    else pySplitGo (c :: acc) cs

/-- Python `str.split()` with no arguments: split on runs of whitespace,
discarding empty pieces. -/
def pySplit (s : Str) : List Str := pySplitGo [] s

/-- Whether `needle` occurs at the start of `hay`. -/
def pyStartsWith : Str → Str → Bool
  | _, [] => true
  | [], _ :: _ => false
  | c :: cs, d :: ds => c == d && pyStartsWith cs ds

/-- Python's substring test `needle in haystack`. -/
def pyContains (hay needle : Str) : Bool :=
  if pyStartsWith hay needle then true
  else
    match hay with
    | [] => false
    | _ :: t => pyContains t needle

/-- Python `' '.join(pieces)`. -/
def pyJoinSpace (pieces : List Str) : Str := List.intercalate [' '] pieces

/-- Python slicing `l[-k:]` for an `int` index `k`: the last `k` elements when
`k > 0`, the whole list when `k = 0` (since `-0 == 0`), and `l[(-k):]` when
`k < 0`. -/
def pySliceLast {α : Type} (l : List α) (k : Int) : List α :=
  if 0 < k then l.drop (l.length - k.toNat)
  else if k = 0 then l
  else l.drop (-k).toNat

/-- Python `list.insert(-1, x)`: insert before the last element (at the front
of an empty list). -/
def pyInsertBeforeLast {α : Type} (l : List α) (x : α) : List α :=
  l.take (l.length - 1) ++ x :: l.drop (l.length - 1)

/-!
A regex core sufficient for the extractor's seven patterns. Alternation is
ordered (leftmost alternative preferred) and the one-or-more quantifier, which
these patterns only ever apply to single-character classes (`\s+`, `.+`,
`.+?`), carries a greediness flag, reproducing CPython's backtracking
priority.
-/

inductive Re where
  | eps : Re
  | lit : Str → Re
  | alt : Re → Re → Re
  | seq : Re → Re → Re
  | group : Nat → Re → Re
  | plus : Bool → (Char → Bool) → Re

/-- Number of capturing groups of a pattern; Python's `match.groups()` has
exactly this length. -/
def numGroups : Re → Nat
  | .eps => 0
  | .lit _ => 0
  | .alt a b => numGroups a + numGroups b
  | .seq a b => numGroups a + numGroups b
  | .group _ r => numGroups r + 1
  | .plus _ _ => 0

/-- A capture record: group index, start position, end position. -/
abbrev Cap := Nat × Nat × Nat

/-- A match: its span and the captures recorded while producing it. -/
structure RMatch where
  mstart : Nat
  mstop : Nat
  caps : List Cap

/-- Match a literal at a position, returning the following position. -/
def matchLit (s : Str) : Nat → Str → Option Nat
  | pos, [] => some pos
  | pos, c :: cs =>
    match s.get? pos with
    | some d => if c == d then matchLit s (pos + 1) cs else none
    | none => none

/-- Length of the run of characters satisfying `p` starting at `pos`. -/
def classRun (s : Str) (pos : Nat) (p : Char → Bool) : Nat :=
  ((s.drop pos).takeWhile p).length

/-- First success of `f` over a list of candidate lengths. -/
def firstSome {α : Type} (f : Nat → Option α) : List Nat → Option α
  | [] => none
  | n :: ns => (f n).orElse (fun _ => firstSome f ns)

/-- Backtracking matcher with continuation `k`, trying possibilities in
CPython's priority order: earlier alternatives first, longer repetitions first
when greedy and shorter first when lazy. -/
def mmatch (s : Str) : Re → Nat → List Cap → (Nat → List Cap → Option (Nat × List Cap)) →
    Option (Nat × List Cap)
  | .eps, pos, caps, k => k pos caps
  | .lit cs, pos, caps, k =>
    match matchLit s pos cs with
    | some p => k p caps
    | none => none
  | .alt a b, pos, caps, k =>
    (mmatch s a pos caps k).orElse (fun _ => mmatch s b pos caps k)
  | .seq a b, pos, caps, k =>
    mmatch s a pos caps (fun p c => mmatch s b p c k)
  | .group n r, pos, caps, k =>
    mmatch s r pos caps (fun p c => k p (c ++ [(n, pos, p)]))
  | .plus greedy p, pos, caps, k =>
    let maxN := classRun s pos p
    let lens := if greedy then (List.range maxN).map (fun i => maxN - i)
                else (List.range maxN).map (fun i => i + 1)
    firstSome (fun len => k (pos + len) caps) lens

/-- Leftmost search from `pos`, fuelled by the remaining length. -/
def searchFromAux (re : Re) (s : Str) : Nat → Nat → Option RMatch
  | _, 0 => none
  | pos, fuel + 1 =>
    if s.length < pos then none
    else
      match mmatch s re pos [] (fun p c => some (p, c)) with
      | some (e, c) => some ⟨pos, e, c⟩
      | none => searchFromAux re s (pos + 1) fuel

/-- Python `re.search` semantics starting at `pos`: the match at the leftmost
feasible start position. -/
def searchFrom (re : Re) (s : Str) (pos : Nat) : Option RMatch :=
  searchFromAux re s pos (s.length + 1 - pos)

/-- Fuelled loop of `re.finditer`: after a match, resume at its end (or one
step further on an empty match). -/
def finditerAux (re : Re) (s : Str) : Nat → Nat → List RMatch
  | _, 0 => []
  | pos, fuel + 1 =>
    match searchFrom re s pos with
    | none => []
    | some m =>
      m :: finditerAux re s (if m.mstart < m.mstop then m.mstop else m.mstart + 1) fuel

/-- Python `re.finditer`: all non-overlapping matches, left to right. -/
def finditer (re : Re) (s : Str) : List RMatch := finditerAux re s 0 (s.length + 2)

/-- Python `match.group(i)`: the text of the most recent capture of group `i`
(our patterns capture each group at most once per match). -/
def groupStr (s : Str) (m : RMatch) (i : Nat) : Str :=
  match m.caps.reverse.find? (fun c => c.1 == i) with
  | some (_, a, b) => (s.drop a).take (b - a)
  | none => []

/-- Shorthand for a literal pattern piece. -/
def rlit (s : String) : Re := Re.lit s.data

/-- Concatenate pattern pieces. -/
def rcat (l : List Re) : Re := l.foldr Re.seq Re.eps

/-- The `\s+` piece. -/
def rspaces : Re := Re.plus true isPySpace

/-- The class of `.` (any character except a newline). -/
def dotClass (c : Char) : Bool := c != '\n'

/-- The greedy `.+` piece. -/
def rdotPlus : Re := Re.plus true dotClass

/-- The lazy `.+?` piece. -/
def rdotPlusLazy : Re := Re.plus false dotClass

/-!
Data model from `src/agent/entities.py` and `src/agent/features.py`. Instants
(`datetime`) are embedded as natural-number clock readings; floats as
rationals. Python metadata dictionaries hold strings, numbers or `None`.
-/

inductive PyVal where
  | vStr : Str → PyVal
  | vNum : ℚ → PyVal
  | vNone : PyVal
deriving DecidableEq

/-- A Python metadata dictionary (insertion-ordered key/value pairs). -/
abbrev Meta := List (Str × PyVal)

/-- Python `dict.get(k)`: the value at `k`, or nothing. -/
def metaGet (m : Meta) (k : Str) : Option PyVal :=
  (m.find? (fun p => p.1 == k)).map (fun p => p.2)

/-- The `MessageRole` enum. -/
inductive MessageRole where
  | user : MessageRole
  | assistant : MessageRole
  | system : MessageRole
deriving DecidableEq

/-- The `.value` of a role member. -/
def MessageRole.value : MessageRole → Str
  | .user => txt "user"
  | .assistant => txt "assistant"
  | .system => txt "system"

/-- The `Message` entity. Python generates a fresh UUID when `id` is empty;
identifiers are never inspected by the logic under study, so they are carried
opaquely. -/
structure Message where
  id : Str
  role : MessageRole
  content : Str
  timestamp : Nat
  metadata : Option Meta := none
deriving DecidableEq

instance : Inhabited Message :=
  ⟨{ id := [], role := .user, content := [], timestamp := 0 }⟩

/-- The `Conversation` entity. -/
structure Conversation where
  id : Str
  messages : List Message
  title : Option Str := none
  created_at : Nat
  updated_at : Nat
  metadata : Option Meta := none
deriving DecidableEq

/-- `Conversation.add_message`: append and bump `updated_at` to the current
clock reading. -/
def add_message (c : Conversation) (message : Message) (now : Nat) : Conversation :=
  { c with messages := c.messages ++ [message], updated_at := now }

/-- `Conversation.get_context_messages`: `self.messages[-max_length:]`. -/
def get_context_messages (c : Conversation) (max_length : Int) : List Message :=
  pySliceLast c.messages max_length

/-- The `MemoryItem` dataclass of `features.py`. -/
structure MemoryItem where
  key : Str
  value : Str
  category : Str
  created_at : Nat
  last_accessed : Nat
  access_count : Nat := 0
  confidence : ℚ := 1
  context : Option Str := none
deriving DecidableEq

/-- `MemoryExtractor.MEMORY_PATTERNS`, the ordered rule table, with each raw
pattern transliterated piece by piece (`(?:x|y)` to ordered alternation, `\s+`
to a greedy whitespace repetition, `(.+?)`/`(.+)` to lazy/greedy dot
repetitions under a capturing group, and bare words to case-sensitive
literals — note patterns 4 and 7 start with a capital `I` while the extractor
matches against lower-cased text). -/
def MEMORY_PATTERNS : List (Re × Str) := [
  (rcat [Re.alt (rlit "my") (rlit "the"), rspaces, Re.group 1 rdotPlusLazy, rspaces,
         Re.alt (rlit "is") (rlit "are"), rspaces,
         Re.alt (rlit "at") (Re.alt (rlit "in") (rlit "on")), rspaces,
         Re.group 2 rdotPlus], txt "location"),
  (rcat [Re.group 1 rdotPlusLazy, rspaces, Re.alt (rlit "is") (rlit "are"), rspaces,
         Re.alt (rlit "located") (Re.alt (rlit "placed") (rlit "stored")), rspaces,
         Re.alt (rlit "at") (Re.alt (rlit "in") (rlit "on")), rspaces,
         Re.group 2 rdotPlus], txt "location"),
  (rcat [Re.alt (rlit "my") (rlit "the"), rspaces, Re.group 1 rdotPlusLazy, rspaces,
         Re.alt (rlit "is") (rlit "are"), rspaces, Re.group 2 rdotPlus], txt "personal"),
  (rcat [rlit "I", rspaces, Re.alt (rlit "am") (Re.alt (rlit "have") (rlit "work")), rspaces,
         Re.group 1 rdotPlus], txt "personal"),
  (rcat [Re.group 1 rdotPlusLazy, rspaces, Re.alt (rlit "is") (rlit "will be"), rspaces,
         Re.alt (rlit "on") (rlit "at"), rspaces, Re.group 2 rdotPlus], txt "schedule"),
  (rcat [Re.alt (rlit "remember") (rlit "remind"), rspaces, Re.alt (rlit "me") (rlit "that"),
         rspaces, Re.group 1 rdotPlus], txt "reminder"),
  (rcat [rlit "I", rspaces,
         Re.alt (rlit "like") (Re.alt (rlit "love") (Re.alt (rlit "prefer") (Re.alt (rlit "hate") (rlit "dislike")))),
         rspaces, Re.group 1 rdotPlus], txt "preference")]

/-- `MemoryExtractor._extract_from_text`: lower-case the text, run every rule
independently, and build one item per match of a rule with at least two
capturing groups. Python calls `datetime.now()` per item; the single `now`
argument stands for those clock readings. -/
def extract_from_text (now : Nat) (text : Str) : List MemoryItem :=
  let text_lower := pyLower text
  MEMORY_PATTERNS.foldl (fun memories pc =>
    memories ++ (finditer pc.1 text_lower).filterMap (fun m =>
      if 2 ≤ numGroups pc.1 then
        some { key := pyStrip (groupStr text_lower m 1),
               value := pyStrip (groupStr text_lower m 2),
               category := pc.2, created_at := now, last_accessed := now,
               access_count := 0, confidence := 1, context := some text }
      else none)) []

/-- `MemoryExtractor.extract_memories`: extract from every user message. -/
def extract_memories (now : Nat) (conversation : Conversation) : List MemoryItem :=
  conversation.messages.foldl (fun memories message =>
    if message.role == MessageRole.user then memories ++ extract_from_text now message.content
    else memories) []

/-!
The conversation analyzer (`ConversationAnalyzer`).
-/

/-- The result dictionary of `analyze_conversation`. -/
structure ConversationAnalysis where
  message_count : Nat
  user_message_count : Nat
  assistant_message_count : Nat
  conversation_length : Nat
  topics : List Str
  sentiment : Str
  questions_asked : Nat
  duration : ℚ
deriving DecidableEq

/-- The fixed topic keyword buckets, in declaration order. -/
def topic_keywords : List (Str × List Str) := [
  (txt "work", [txt "work", txt "job", txt "office", txt "meeting", txt "project", txt "deadline"]),
  (txt "personal", [txt "family", txt "home", txt "personal", txt "life", txt "health"]),
  (txt "technology", [txt "computer", txt "software", txt "app", txt "tech", txt "digital"]),
  (txt "schedule", [txt "time", txt "date", txt "schedule", txt "appointment", txt "calendar"]),
  (txt "location", [txt "place", txt "location", txt "address", txt "where", txt "room"]),
  (txt "memory", [txt "remember", txt "recall", txt "memory", txt "forget", txt "stored"])]

/-- `ConversationAnalyzer._extract_topics`. -/
def extract_topics (messages : List Message) : List Str :=
  let text := pyLower (pyJoinSpace (messages.map (fun m => m.content)))
  (topic_keywords.filter (fun tk => tk.2.any (fun kw => pyContains text kw))).map (fun tk => tk.1)

/-- The fixed positive-word list. -/
def positive_words : List Str :=
  [txt "good", txt "great", txt "excellent", txt "amazing", txt "wonderful", txt "fantastic",
   txt "love", txt "like", txt "happy", txt "pleased"]

/-- The fixed negative-word list. -/
def negative_words : List Str :=
  [txt "bad", txt "terrible", txt "awful", txt "hate", txt "dislike", txt "angry",
   txt "frustrated", txt "disappointed", txt "sad"]

/-- `ConversationAnalyzer._analyze_sentiment`. -/
def analyze_sentiment (messages : List Message) : Str :=
  match messages with
  | [] => txt "neutral"
  | _ =>
    let text := pyLower (pyJoinSpace (messages.map (fun m => m.content)))
    let positive_count := (positive_words.filter (fun w => pyContains text w)).length
    let negative_count := (negative_words.filter (fun w => pyContains text w)).length
    if negative_count < positive_count then txt "positive"
    else if positive_count < negative_count then txt "negative"
    else txt "neutral"

/-- `ConversationAnalyzer._count_questions`: total count of the character
`?` over the messages it is GIVEN (the analyzer passes only user messages). -/
def count_questions (messages : List Message) : Nat :=
  messages.foldl (fun question_count message => question_count + message.content.count '?') 0

/-- `ConversationAnalyzer.analyze_conversation`. -/
def analyze_conversation (conversation : Conversation) : ConversationAnalysis :=
  let user_messages := conversation.messages.filter (fun m => m.role == MessageRole.user)
  let assistant_messages := conversation.messages.filter (fun m => m.role == MessageRole.assistant)
  { message_count := conversation.messages.length
    user_message_count := user_messages.length
    assistant_message_count := assistant_messages.length
    conversation_length := (pyJoinSpace (conversation.messages.map (fun m => m.content))).length
    topics := extract_topics conversation.messages
    sentiment := analyze_sentiment user_messages
    questions_asked := count_questions user_messages
    duration := ((conversation.updated_at : ℚ) - (conversation.created_at : ℚ)) / 60 }

/-!
The context manager (`ContextManager`). Python's `list.sort(key=...,
reverse=True)` is a stable sort, the unique order-preserving one; it is
embedded as `List.insertionSort` with the corresponding relation.
-/

/-- The raw relevance score of `_find_relevant_memories` for one item against
the lower-cased query: the three `if` increments of the loop body. The
category test uses `memory.category` verbatim, without case folding. -/
def memory_score (query_lower : Str) (memory : MemoryItem) : Nat :=
  (if pyContains query_lower (pyLower memory.key) then 2 else 0) +
  (if (pySplit (pyLower memory.value)).any (fun word => pyContains query_lower word) then 1 else 0) +
  (if pyContains query_lower memory.category then 1 else 0)

/-- The selection loop of `_find_relevant_memories`: keep positively scored
items in pool order, overwriting `confidence` with `min(1.0, score / 3.0)`. -/
def scored_relevant (query_lower : Str) (memories : List MemoryItem) : List MemoryItem :=
  memories.foldl (fun relevant memory =>
    let score := memory_score query_lower memory
    if 0 < score then
      relevant ++ [{ memory with confidence := min 1 ((score : ℚ) / 3) }]
    else relevant) []

/-- Ordering used by the final `relevant.sort(key=lambda x: x.confidence,
reverse=True)`. -/
def confGE (a b : MemoryItem) : Prop := b.confidence ≤ a.confidence

instance : DecidableRel confGE := fun a b =>
  inferInstanceAs (Decidable (b.confidence ≤ a.confidence))

instance : IsTotal MemoryItem confGE := ⟨fun a b => le_total b.confidence a.confidence⟩

instance : IsTrans MemoryItem confGE := ⟨fun _ _ _ h1 h2 => le_trans h2 h1⟩

/-- `ContextManager._find_relevant_memories`. -/
def find_relevant_memories (query : Str) (memories : List MemoryItem) : List MemoryItem :=
  List.insertionSort confGE (scored_relevant (pyLower query) memories)

/-- The synthesized system message for one injected memory. -/
def memory_message (now : Nat) (memory : MemoryItem) : Message :=
  { id := txt "", role := MessageRole.system,
    content := txt "Memory: " ++ memory.key ++ txt " is " ++ memory.value,
    timestamp := now,
    metadata := some [(txt "type", PyVal.vStr (txt "memory")),
                      (txt "confidence", PyVal.vNum memory.confidence)] }

/-- `ContextManager.get_relevant_context`: recent window, then up to three
ranked memories each inserted at index `-1`. `max_context_length` is the
constructor argument of `ContextManager` (Python default 10); the Python
truthiness test `if memories:` skips both `None` and an empty pool. -/
def get_relevant_context (now : Nat) (max_context_length : Int) (conversation : Conversation)
    (current_message : Str) (memories : Option (List MemoryItem)) : List Message :=
  let context_messages := get_context_messages conversation max_context_length
  match memories with
  | none => context_messages
  | some mems =>
    if mems.isEmpty then context_messages
    else
      ((find_relevant_memories current_message mems).take 3).foldl
        (fun ctx memory => pyInsertBeforeLast ctx (memory_message now memory)) context_messages

/-!
Persistence (`src/agent/infrastructure/__init__.py`) and the use-case layer
(`src/agent/use_cases.py`). A stored JSON file is either undecodable
(`badJSON`, making `json.load` raise) or a decoded record whose fields may be
absent (an absent field makes `data[...]` raise `KeyError`). ISO-8601
timestamps of instants are abstracted to their decimal digit strings:
`isoformat` renders the clock reading and `fromisoformat` parses digit
strings back, raising `ValueError` on anything else, preserving the error
channel of `datetime.fromisoformat`. The repository directory is an
association list ordered by decreasing modification time (a write moves the
entry to the front).
-/

inductive PyErr where
  | jsonDecodeError : PyErr
  | keyError : PyErr
  | valueError : PyErr
  | backendError : Str → PyErr
deriving DecidableEq

/-- Decimal digits of `n`, least significant first, fuelled (the fuel `n + 1`
always suffices since the argument at least halves each step). -/
def natDigitsRevAux : Nat → Nat → List Nat
  | _, 0 => []
  | n, fuel + 1 => if n < 10 then [n] else n % 10 :: natDigitsRevAux (n / 10) fuel

/-- Decimal digits of `n`, least significant first. -/
def natDigitsRev (n : Nat) : List Nat := natDigitsRevAux n (n + 1)

/-- The character of a decimal digit. -/
def digitChar (d : Nat) : Char := Char.ofNat (48 + d)

/-- The value of a decimal digit character, if it is one. -/
def charDigitVal (c : Char) : Option Nat :=
  if '0' ≤ c ∧ c ≤ '9' then some (c.toNat - 48) else none

/-- Render an instant as its decimal digit string (the embedding of
`datetime.isoformat`). -/
def isoformat (t : Nat) : Str := (natDigitsRev t).reverse.map digitChar

/-- Accumulating decimal parse. -/
def parseNatAux : Nat → Str → Option Nat
  | acc, [] => some acc
  | acc, c :: cs =>
    match charDigitVal c with
    | some d => parseNatAux (acc * 10 + d) cs
    | none => none

/-- The embedding of `datetime.fromisoformat`: parse a rendered instant back,
raising `ValueError` on any string that is not one. -/
def fromisoformat (s : Str) : Except PyErr Nat :=
  if s.isEmpty then .error .valueError
  else
    match parseNatAux 0 s with
    | some n => .ok n
    | none => .error .valueError

/-- A decoded message dictionary; `none` models an absent key (for
`metadata`, Python uses `.get`, which conflates absent and `null`). -/
structure RawMessage where
  id : Option Str
  role : Option Str
  content : Option Str
  timestamp : Option Str
  metadata : Option Meta
deriving DecidableEq

/-- A decoded conversation dictionary. -/
structure RawConversation where
  id : Option Str
  title : Option (Option Str)
  created_at : Option Str
  updated_at : Option Str
  metadata : Option Meta
  messages : Option (List RawMessage)
deriving DecidableEq

/-- A stored file: either undecodable JSON or a decoded record. -/
inductive StoredFile where
  | badJSON : StoredFile
  | record : RawConversation → StoredFile
deriving DecidableEq

/-- The repository directory, most recently written first. -/
abbrev Repo := List (Str × StoredFile)

/-- Read a required key, raising `KeyError` when absent. -/
def getKey {α : Type} : Option α → Except PyErr α
  | some a => .ok a
  | none => .error .keyError

/-- The constructor call `MessageRole(value)`: `ValueError` on a string that
is no member value. -/
def parseRole (s : Str) : Except PyErr MessageRole :=
  if s == txt "user" then .ok .user
  else if s == txt "assistant" then .ok .assistant
  else if s == txt "system" then .ok .system
  else .error .valueError

/-- One message of `JSONFileRepository._dict_to_conversation`, fields read in
source order. -/
def dict_to_message (raw : RawMessage) : Except PyErr Message := do
  let mid ← getKey raw.id
  let role ← parseRole (← getKey raw.role)
  let content ← getKey raw.content
  let timestamp ← fromisoformat (← getKey raw.timestamp)
  .ok { id := mid, role := role, content := content, timestamp := timestamp,
        metadata := raw.metadata }

/-- The list comprehension building the messages: elements are converted
left to right and the first raised error propagates. -/
def messagesFromRaw : List RawMessage → Except PyErr (List Message)
  | [] => .ok []
  | raw :: rest => do
    let m ← dict_to_message raw
    let ms ← messagesFromRaw rest
    .ok (m :: ms)

/-- `JSONFileRepository._dict_to_conversation`: the message list is built
first, then the remaining fields are read in argument order. -/
def dict_to_conversation (data : RawConversation) : Except PyErr Conversation := do
  let rawMessages ← getKey data.messages
  let messages ← messagesFromRaw rawMessages
  let cid ← getKey data.id
  let title ← getKey data.title
  let created_at ← fromisoformat (← getKey data.created_at)
  let updated_at ← fromisoformat (← getKey data.updated_at)
  .ok { id := cid, messages := messages, title := title, created_at := created_at,
        updated_at := updated_at, metadata := data.metadata }

/-- `JSONFileRepository._conversation_to_dict`, message part. -/
def message_to_dict (m : Message) : RawMessage :=
  { id := some m.id, role := some m.role.value, content := some m.content,
    timestamp := some (isoformat m.timestamp), metadata := m.metadata }

/-- `JSONFileRepository._conversation_to_dict`. -/
def conversation_to_dict (c : Conversation) : RawConversation :=
  { id := some c.id, title := some c.title, created_at := some (isoformat c.created_at),
    updated_at := some (isoformat c.updated_at), metadata := c.metadata,
    messages := some (c.messages.map message_to_dict) }

/-- Look a file up in the directory. -/
def repoLookup (repo : Repo) (cid : Str) : Option StoredFile :=
  (repo.find? (fun e => e.1 == cid)).map (fun e => e.2)

/-- Deserialize one stored file (`json.load` then `_dict_to_conversation`). -/
def parse_stored : StoredFile → Except PyErr Conversation
  | .badJSON => .error .jsonDecodeError
  | .record r => dict_to_conversation r

/-- `JSONFileRepository.save_conversation`: write the serialized record under
the file name derived from the conversation id; the file becomes the most
recently modified one. -/
def save_conversation (repo : Repo) (conversation : Conversation) : Repo :=
  (conversation.id, StoredFile.record (conversation_to_dict conversation)) ::
    repo.filter (fun e => !(e.1 == conversation.id))

/-- `JSONFileRepository.get_conversation`: absent file reports absence; the
`try` block catches exactly `json.JSONDecodeError` and `KeyError`, so those
report absence while any other error propagates. -/
def get_conversation (repo : Repo) (conversation_id : Str) : Except PyErr (Option Conversation) :=
  match repoLookup repo conversation_id with
  | none => .ok none
  | some sf =>
    match parse_stored sf with
    | .ok c => .ok (some c)
    | .error .jsonDecodeError => .ok none
    | .error .keyError => .ok none
    | .error e => .error e

/-- The scan loop of `JSONFileRepository.list_conversations`: decodable
records are kept in order, `json.JSONDecodeError` and `KeyError` skip the
file via `continue`, and any other error propagates out of the loop. -/
def listScan : List (Str × StoredFile) → Except PyErr (List Conversation)
  | [] => .ok []
  | e :: rest =>
    match parse_stored e.2 with
    | .ok c => do
      let cs ← listScan rest
      .ok (c :: cs)
    | .error .jsonDecodeError => listScan rest
    | .error .keyError => listScan rest
    | .error err => .error err

/-- `JSONFileRepository.list_conversations`: newest `limit` files, scanned. -/
def list_conversations (repo : Repo) (limit : Nat) : Except PyErr (List Conversation) :=
  listScan (repo.take limit)

/-- The `ChatResponse` entity. -/
structure ChatResponse where
  message : Message
  confidence : Option ℚ := none
  processing_time : Option ℚ := none
  model_info : Option Meta := none
deriving DecidableEq

/-- The generation backend as seen by `ChatbotUseCase`: readiness flag, the
outcome loading would have, and the generation call as a function of the
context (failure embeds a raised exception). -/
structure LangModel where
  isLoaded : Bool
  loadResult : Except PyErr Unit
  generate : List Message → Except PyErr ChatResponse

/-- The user `Message` built at the start of `ChatbotUseCase.send_message`
(`id=""` makes Python generate a fresh UUID, passed here as `new_id`). -/
def user_turn_message (new_id : Str) (content : Str) (now : Nat) : Message :=
  { id := new_id, role := MessageRole.user, content := content, timestamp := now }

/-- `ChatbotUseCase.send_message`. The pair's second component is the
repository state after the call, which an exception leaves untouched since
the only write is the final save. `now` stands for the turn's clock readings
and `elapsed` for the measured processing time. -/
def send_message (lm : LangModel) (repo : Repo) (conversation_id : Str) (user_message : Str)
    (new_id : Str) (now : Nat) (elapsed : ℚ) : Except PyErr ChatResponse × Repo :=
  match get_conversation repo conversation_id with
  | .error e => (.error e, repo)
  | .ok none => (.error .valueError, repo)
  | .ok (some conversation) =>
    let conversation := add_message conversation (user_turn_message new_id user_message now) now
    match (if lm.isLoaded then Except.ok () else lm.loadResult) with
    | .error e => (.error e, repo)
    | .ok _ =>
      let context_messages := get_context_messages conversation 10
      match lm.generate context_messages with
      | .error e => (.error e, repo)
      | .ok response =>
        let response := { response with processing_time := some elapsed }
        let conversation := add_message conversation response.message now
        (.ok response, save_conversation repo conversation)

/-- The memory record conversation built by `MemoryUseCase.store_memory`:
the id is derived deterministically from the key. -/
def memory_conversation (key value : Str) (context : Option Str) (now : Nat) : Conversation :=
  { id := txt "memory_" ++ key,
    messages := [{ id := txt "", role := MessageRole.system,
                   content := txt "MEMORY: " ++ key ++ txt " = " ++ value,
                   timestamp := now,
                   metadata := some [(txt "type", PyVal.vStr (txt "memory")),
                                     (txt "key", PyVal.vStr key),
                                     (txt "context",
                                      match context with
                                      | some s => PyVal.vStr s
                                      | none => PyVal.vNone)] }],
    title := some (txt "Memory: " ++ key),
    created_at := now, updated_at := now,
    metadata := some [(txt "type", PyVal.vStr (txt "memory"))] }

/-- `MemoryUseCase.store_memory`: build the memory record and save it. -/
def store_memory (repo : Repo) (key value : Str) (context : Option Str) (now : Nat) : Repo :=
  save_conversation repo (memory_conversation key value context now)

/-- `MemoryUseCase.retrieve_memories`: list (default limit 50), keep
memory-tagged conversations and messages, and collect contents containing the
query case-insensitively. Python's truthiness test on a metadata dictionary
is false for an empty one. -/
def retrieve_memories (repo : Repo) (query : Str) : Except PyErr (List Str) :=
  match list_conversations repo 50 with
  | .error e => .error e
  | .ok conversations =>
    .ok (conversations.foldl (fun memories conv =>
      match conv.metadata with
      | none => memories
      | some meta =>
        if meta.isEmpty then memories
        else if metaGet meta (txt "type") == some (PyVal.vStr (txt "memory")) then
          conv.messages.foldl (fun ms message =>
            match message.metadata with
            | none => ms
            | some mm =>
              if mm.isEmpty then ms
              else if metaGet mm (txt "type") == some (PyVal.vStr (txt "memory")) then
                if pyContains (pyLower message.content) (pyLower query) then ms ++ [message.content]
                else ms
              else ms) memories
        else memories) [])

/-!
Theorems. Fixtures and shared helper lemmas come first, then one theorem per
claim (with counterexamples and witnesses where applicable).
-/

/-- The timestamp-free content of a memory item, `(key, value, category)`. -/
def memProj (m : MemoryItem) : Str × Str × Str := (m.key, m.value, m.category)

/-- A conversation whose only (user) message is "my wallet is on the desk". -/
def convWallet : Conversation :=
  { id := txt "c1",
    messages := [{ id := txt "m1", role := MessageRole.user,
                   content := txt "my wallet is on the desk", timestamp := 0 }],
    created_at := 0, updated_at := 0 }

/-- Per-text extraction depends on the clock only through the timestamp
fields, which `memProj` discards. -/
theorem extract_from_text_proj (t1 t2 : Nat) (text : Str) :
    (extract_from_text t1 text).map memProj = (extract_from_text t2 text).map memProj := by
  simp [extract_from_text, MEMORY_PATTERNS, List.foldl, List.map_append, List.map_filterMap,
        apply_ite, memProj]

/-- The extraction fold preserves projection equality of accumulators across
different clock readings. -/
theorem extract_foldl_proj (t1 t2 : Nat) :
    ∀ (msgs : List Message) (acc1 acc2 : List MemoryItem),
      acc1.map memProj = acc2.map memProj →
      (msgs.foldl (fun memories message =>
          if message.role == MessageRole.user then memories ++ extract_from_text t1 message.content
          else memories) acc1).map memProj =
      (msgs.foldl (fun memories message =>
          if message.role == MessageRole.user then memories ++ extract_from_text t2 message.content
          else memories) acc2).map memProj := by
  intro msgs
  induction msgs with
  | nil => intro acc1 acc2 h; simpa using h
  | cons m rest ih =>
    intro acc1 acc2 h
    simp only [List.foldl_cons]
    by_cases hrole : m.role == MessageRole.user
    · simp only [hrole, if_true]
      exact ih _ _ (by simp [List.map_append, h, extract_from_text_proj t1 t2])
    · simp only [hrole, if_false]
      exact ih _ _ h

/-- Extraction results, projected to `(key, value, category)`, are the same
for any two clock readings. -/
theorem extract_memories_proj (t1 t2 : Nat) (conversation : Conversation) :
    (extract_memories t1 conversation).map memProj =
      (extract_memories t2 conversation).map memProj := by
  unfold extract_memories
  exact extract_foldl_proj t1 t2 conversation.messages [] [] rfl

/-- C1, counterexample: on the conversation whose only user message is
"my wallet is on the desk", `extract_memories` does not yield exactly one
memory item (it yields three: the location, personal and schedule rules all
match the sentence — there is no first-rule-wins suppression of later rules
over the same span). -/
theorem c1_counterexample : ¬ ((extract_memories 0 convWallet).length = 1) := by decide

/-- C1, amended: on the conversation whose only user message is
"my wallet is on the desk", `extract_memories` yields exactly three items,
one per matching rule in declaration order: first a `location` item with key
"wallet" (containing "wallet") and value "the desk" (containing "desk"), then
a `personal` item ("wallet" / "on the desk"), then a `schedule` item
("my wallet" / "the desk"). Matching rules are not mutually exclusive: each
produces its own item even for the same span. -/
theorem c1_theorem (t : Nat) :
    (extract_memories t convWallet).map memProj =
      [(txt "wallet", txt "the desk", txt "location"),
       (txt "wallet", txt "on the desk", txt "personal"),
       (txt "my wallet", txt "the desk", txt "schedule")] := by
  rw [extract_memories_proj t 0]
  decide

/-- C2: `extract_memories` is idempotent up to timestamps — two calls on the
same conversation (with arbitrary clock readings `t1`, `t2`) yield sequences
of equal length with equal `(key, value, category)` tuples at every
position. -/
theorem c2_theorem (conversation : Conversation) (t1 t2 : Nat) :
    (extract_memories t1 conversation).map memProj =
      (extract_memories t2 conversation).map memProj :=
  extract_memories_proj t1 t2 conversation

/-- The question count the specification claims: `?` characters summed over
ALL messages of the conversation, regardless of role (spec wording of
§4.4). -/
def total_question_marks (c : Conversation) : Nat :=
  (c.messages.map (fun m => m.content.count '?')).sum

/-- The question-counting fold equals the sum of per-message counts. -/
theorem count_questions_foldl (msgs : List Message) :
    ∀ acc : Nat,
      msgs.foldl (fun question_count message => question_count + message.content.count '?') acc =
        acc + (msgs.map (fun m => m.content.count '?')).sum := by
  induction msgs with
  | nil => intro acc; simp
  | cons m rest ih => intro acc; simp [List.foldl_cons, ih, Nat.add_assoc]

/-- A conversation with a single assistant message consisting of one
question mark. -/
def convAssistantQ : Conversation :=
  { id := txt "cq",
    messages := [{ id := txt "m1", role := MessageRole.assistant, content := txt "?",
                   timestamp := 0 }],
    created_at := 0, updated_at := 0 }

/-- C7, counterexample: on a conversation whose only message is an assistant
message "?", the analyzer reports `questions_asked = 0`, not the total count
of `?` characters over all messages (which is 1): `_count_questions` is
applied to the user messages only. -/
theorem c7_counterexample :
    ¬ ((analyze_conversation convAssistantQ).questions_asked =
        total_question_marks convAssistantQ) := by decide

/-- C7, amended: for every conversation, `questions_asked` equals the number
of `?` characters summed over the user messages only (assistant and system
messages are not counted). -/
theorem c7_theorem (conversation : Conversation) :
    (analyze_conversation conversation).questions_asked =
      ((conversation.messages.filter (fun m => m.role == MessageRole.user)).map
        (fun m => m.content.count '?')).sum := by
  unfold analyze_conversation count_questions
  simpa using count_questions_foldl
    (conversation.messages.filter (fun m => m.role == MessageRole.user)) 0

/-- The selection fold of the scorer equals filtering the pool to positively
scored items (in pool order) and overwriting each confidence. -/
theorem scored_relevant_eq (query_lower : Str) (memories : List MemoryItem) :
    scored_relevant query_lower memories =
      (memories.filter (fun m => decide (0 < memory_score query_lower m))).map
        (fun m => { m with confidence := min 1 ((memory_score query_lower m : ℚ) / 3) }) := by
  unfold scored_relevant
  suffices h : ∀ (l : List MemoryItem) (acc : List MemoryItem),
      l.foldl (fun relevant memory =>
        let score := memory_score query_lower memory
        if 0 < score then relevant ++ [{ memory with confidence := min 1 ((score : ℚ) / 3) }]
        else relevant) acc =
      acc ++ (l.filter (fun m => decide (0 < memory_score query_lower m))).map
        (fun m => { m with confidence := min 1 ((memory_score query_lower m : ℚ) / 3) }) by
    simpa using h memories []
  intro l
  induction l with
  | nil => intro acc; simp
  | cons m rest ih =>
    intro acc
    by_cases hm : 0 < memory_score query_lower m
    · simp [List.foldl_cons, hm, ih, List.filter_cons]
    · simp [List.foldl_cons, hm, ih, List.filter_cons]

/-- The scoring the claim describes, with the category name case-folded like
the key and the value (the code folds only the key and the value). -/
def claimed_memory_score (query_lower : Str) (memory : MemoryItem) : Nat :=
  (if pyContains query_lower (pyLower memory.key) then 2 else 0) +
  (if (pySplit (pyLower memory.value)).any (fun word => pyContains query_lower word) then 1 else 0) +
  (if pyContains query_lower (pyLower memory.category) then 1 else 0)

/-- A memory item whose category is spelled in upper case. -/
def itemCased : MemoryItem :=
  { key := txt "zzz", value := txt "qqq", category := txt "LOCATION",
    created_at := 0, last_accessed := 0 }

/-- C3, counterexample: for the query "location please" and a pool holding
one item with category "LOCATION", the claim's case-folded scoring gives the
item a positive raw score (+1 for the category), yet the scorer returns
nothing: the code compares `memory.category` verbatim against the folded
query, without case-folding the category. -/
theorem c3_counterexample :
    0 < claimed_memory_score (pyLower (txt "location please")) itemCased ∧
      find_relevant_memories (txt "location please") [itemCased] = [] := by decide

/-- C3, amended: for every query and pool, the scorer returns (as a
permutation; C4 settles the order) exactly the pool items whose raw score is
positive, each with confidence overwritten to `min 1 (score / 3)` — where the
raw score is +2 if the case-folded key is a substring of the case-folded
query, +1 if some whitespace token of the case-folded value is such a
substring, and +1 if the category string is such a substring verbatim, with
no case folding applied to it (equivalent to the claim's folded test whenever
the pool comes from the extractor, whose categories are lower-case). -/
theorem c3_theorem (query : Str) (memories : List MemoryItem) :
    (find_relevant_memories query memories).Perm
      ((memories.filter (fun m => decide (0 < memory_score (pyLower query) m))).map
        (fun m => { m with confidence := min 1 ((memory_score (pyLower query) m : ℚ) / 3) })) := by
  unfold find_relevant_memories
  rw [scored_relevant_eq]
  exact List.perm_insertionSort confGE _

/-- Inserting into a list in order interacts with filtering by an exact
confidence value: every element the insertion skips is strictly more
confident than the inserted one, hence filtered out with it. -/
theorem filter_confEq_orderedInsert (c : ℚ) (x : MemoryItem) :
    ∀ l : List MemoryItem,
      (List.orderedInsert confGE x l).filter (fun m => decide (m.confidence = c)) =
        if x.confidence = c then x :: l.filter (fun m => decide (m.confidence = c))
        else l.filter (fun m => decide (m.confidence = c)) := by
  intro l
  induction l with
  | nil =>
    by_cases hx : x.confidence = c <;> simp [List.orderedInsert, List.filter_cons, hx]
  | cons b bs ih =>
    by_cases hr : confGE x b
    · by_cases hx : x.confidence = c <;>
        simp [List.orderedInsert, hr, List.filter_cons, hx]
    · have hlt : x.confidence < b.confidence := lt_of_not_le hr
      by_cases hx : x.confidence = c
      · have hb : ¬ (b.confidence = c) := by
          intro hbc
          exact absurd (hbc.trans hx.symm) (ne_of_gt hlt)
        simp [List.orderedInsert, hr, List.filter_cons, hx, hb, ih]
      · by_cases hb : b.confidence = c <;>
          simp [List.orderedInsert, hr, List.filter_cons, hx, hb, ih]

/-- The stable sort leaves each equal-confidence class of the list in its
original relative order. -/
theorem filter_confEq_insertionSort (c : ℚ) :
    ∀ l : List MemoryItem,
      (List.insertionSort confGE l).filter (fun m => decide (m.confidence = c)) =
        l.filter (fun m => decide (m.confidence = c)) := by
  intro l
  induction l with
  | nil => rfl
  | cons x xs ih =>
    by_cases hx : x.confidence = c <;>
      simp [List.insertionSort, filter_confEq_orderedInsert, hx, ih, List.filter_cons]

/-- C4: the scorer's output is sorted by confidence in descending order, and
the sort is stable — for every confidence value, the returned items carrying
it appear in exactly the order their sources occupy in the input pool (the
positively scored pool items in pool order, with confidence overwritten), so
ranking is deterministic for tied scores. -/
theorem c4_theorem (query : Str) (memories : List MemoryItem) :
    List.Sorted confGE (find_relevant_memories query memories) ∧
    ∀ c : ℚ,
      (find_relevant_memories query memories).filter (fun m => decide (m.confidence = c)) =
        ((memories.filter (fun m => decide (0 < memory_score (pyLower query) m))).map
          (fun m => { m with confidence := min 1 ((memory_score (pyLower query) m : ℚ) / 3) })).filter
          (fun m => decide (m.confidence = c)) := by
  constructor
  · exact List.sorted_insertionSort confGE _
  · intro c
    unfold find_relevant_memories
    rw [filter_confEq_insertionSort, scored_relevant_eq]

/-- Inserting before the last element grows the length by one. -/
theorem length_pyInsertBeforeLast {α : Type} (l : List α) (x : α) :
    (pyInsertBeforeLast l x).length = l.length + 1 := by
  unfold pyInsertBeforeLast
  simp
  omega

/-- The memory-injection fold grows the window by one message per injected
memory. -/
theorem length_foldl_insert {α : Type} (g : α → Message) :
    ∀ (ms : List α) (ctx : List Message),
      (ms.foldl (fun acc m => pyInsertBeforeLast acc (g m)) ctx).length =
        ctx.length + ms.length := by
  intro ms
  induction ms with
  | nil => intro ctx; simp
  | cons m rest ih =>
    intro ctx
    simp [List.foldl_cons, ih, length_pyInsertBeforeLast]
    omega

/-- For a positive window, the tail slice has at most `k` elements. -/
theorem length_pySliceLast_le {α : Type} (l : List α) (k : Int) (h : 1 ≤ k) :
    ((pySliceLast l k).length : Int) ≤ k := by
  unfold pySliceLast
  have h0 : 0 < k := by omega
  simp [h0]
  omega

/-- A conversation holding four user messages. -/
def conv4 : Conversation :=
  { id := txt "c4",
    messages := (List.range 4).map (fun i =>
      { id := txt "", role := MessageRole.user, content := [Char.ofNat (97 + i)],
        timestamp := i }),
    created_at := 0, updated_at := 0 }

/-- C5, counterexample: with window value 0 the assembler returns the whole
conversation — Python's `messages[-0:]` is `messages[0:]` — so a four-message
conversation yields four messages, exceeding `window + memory_cap = 3`. The
claimed bound fails for the window value 0. -/
theorem c5_counterexample :
    ¬ (((get_relevant_context 0 0 conv4 (txt "q") none).length : Int) ≤ 0 + 3) := by decide

/-- C5, amended: for every conversation, current message, optional memory
pool and every window value of at least 1, the assembled sequence has length
at most `window + 3` (the window slice yields at most `window` messages and
at most three memories are injected). -/
theorem c5_theorem (now : Nat) (max_context_length : Int) (conversation : Conversation)
    (current_message : Str) (memories : Option (List MemoryItem))
    (h : 1 ≤ max_context_length) :
    ((get_relevant_context now max_context_length conversation current_message memories).length : Int)
      ≤ max_context_length + 3 := by
  unfold get_relevant_context
  have hctx := length_pySliceLast_le conversation.messages max_context_length h
  match memories with
  | none =>
    simp only [get_context_messages]
    omega
  | some mems =>
    by_cases hm : mems.isEmpty
    · simp only [hm, if_true, get_context_messages]
      omega
    · simp only [hm, Bool.false_eq_true, if_false, get_context_messages]
      rw [length_foldl_insert]
      have htake : ((find_relevant_memories current_message mems).take 3).length ≤ 3 :=
        List.length_take_le 3 (find_relevant_memories current_message mems)
      omega

/-- Witness for C5: the bound holds concretely for the four-message
conversation with window 10. -/
theorem c5_witness :
    ((get_relevant_context 0 10 conv4 (txt "q") none).length : Int) ≤ 10 + 3 :=
  c5_theorem 0 10 conv4 (txt "q") none (by decide)

/-- Folding memory-message insertions into a window with last element `b`
places every injected message between the window body and `b`. -/
theorem foldl_insert_structure {α : Type} (g : α → Message) :
    ∀ (ms : List α) (a : List Message) (b : Message),
      ms.foldl (fun acc m => pyInsertBeforeLast acc (g m)) (a ++ [b]) = a ++ ms.map g ++ [b] := by
  intro ms
  induction ms with
  | nil => intro a b; simp
  | cons m rest ih =>
    intro a b
    have hstep : pyInsertBeforeLast (a ++ [b]) (g m) = (a ++ [g m]) ++ [b] := by
      unfold pyInsertBeforeLast
      simp [List.take_left, List.drop_left]
    simp only [List.foldl_cons, hstep, ih (a ++ [g m]) b]
    simp

/-- A conversation built by appending fifteen user messages. -/
def conv15 : Conversation :=
  (List.range 15).foldl (fun c i =>
    add_message c { id := txt "", role := MessageRole.user, content := txt "m" ++ isoformat (i + 1),
                    timestamp := i + 1 } (i + 1))
    { id := txt "c15", messages := [], created_at := 0, updated_at := 0 }

/-- C6: whenever the window is non-empty, the assembled context is the window
body, then every synthesized memory message, then the window's final message
— so the most recent conversation message stays last; and concretely, for a
conversation of fifteen appended user messages with window 10 and no memory
pool, the assembled context is exactly the last ten messages in
chronological order, ending with the fifteenth. -/
theorem c6_theorem :
    (∀ (now : Nat) (max_context_length : Int) (conversation : Conversation)
        (current_message : Str) (mems : List MemoryItem)
        (h : get_context_messages conversation max_context_length ≠ []),
        get_relevant_context now max_context_length conversation current_message (some mems) =
          (get_context_messages conversation max_context_length).dropLast
            ++ ((find_relevant_memories current_message mems).take 3).map (memory_message now)
            ++ [(get_context_messages conversation max_context_length).getLast h]) ∧
    get_relevant_context 0 10 conv15 (txt "hello") none = conv15.messages.drop 5 ∧
    (get_relevant_context 0 10 conv15 (txt "hello") none).getLast? =
      some { id := txt "", role := MessageRole.user, content := txt "m" ++ isoformat 15,
             timestamp := 15 } := by
  refine ⟨?_, by decide, by decide⟩
  intro now maxLen conversation current_message mems h
  unfold get_relevant_context
  by_cases hm : mems.isEmpty
  · have hmems : mems = [] := List.isEmpty_iff.mp hm
    subst hmems
    have hfind : find_relevant_memories current_message [] = [] := rfl
    simp only [hm, if_true, hfind, List.take_nil, List.map_nil, List.append_nil]
    rw [List.dropLast_append_getLast h]
  · simp only [hm, Bool.false_eq_true, if_false]
    conv_lhs => rw [← List.dropLast_append_getLast h]
    rw [foldl_insert_structure]

/-- A two-message conversation for exercising memory injection. -/
def convAB : Conversation :=
  { id := txt "cab",
    messages := [{ id := txt "a", role := MessageRole.user, content := txt "hello",
                   timestamp := 0 },
                 { id := txt "b", role := MessageRole.user, content := txt "where is my wallet",
                   timestamp := 1 }],
    created_at := 0, updated_at := 1 }

/-- A pool containing the extracted wallet item. -/
def poolW : List MemoryItem :=
  [{ key := txt "wallet", value := txt "the desk", category := txt "location",
     created_at := 0, last_accessed := 0 }]

/-- Witness for C6: injecting the wallet memory into the two-message window
places it before the final message. -/
theorem c6_witness :
    get_relevant_context 0 10 convAB (txt "where is my wallet") (some poolW) =
      (get_context_messages convAB 10).dropLast
        ++ ((find_relevant_memories (txt "where is my wallet") poolW).take 3).map
            (memory_message 0)
        ++ [(get_context_messages convAB 10).getLast (by decide)] :=
  c6_theorem.1 0 10 convAB (txt "where is my wallet") poolW (by decide)

instance {ε α : Type} [DecidableEq ε] [DecidableEq α] : DecidableEq (Except ε α) := fun x y =>
  match x, y with
  | .ok a, .ok b =>
    if h : a = b then .isTrue (by rw [h]) else .isFalse (fun hc => h (by injection hc))
  | .error a, .error b =>
    if h : a = b then .isTrue (by rw [h]) else .isFalse (fun hc => h (by injection hc))
  | .ok _, .error _ => .isFalse (fun hc => by cases hc)
  | .error _, .ok _ => .isFalse (fun hc => by cases hc)

/-- Mapping commutes with the window slice. -/
theorem map_pySliceLast {α β : Type} (f : α → β) (l : List α) (k : Int) :
    (pySliceLast l k).map f = pySliceLast (l.map f) k := by
  unfold pySliceLast
  split_ifs <;> simp [List.map_drop]

/-- An empty stored conversation. -/
def convEmptyC : Conversation :=
  { id := txt "c", messages := [], created_at := 0, updated_at := 0 }

/-- A repository holding only the empty conversation. -/
def repo0 : Repo := save_conversation [] convEmptyC

/-- A loaded backend whose generation call always raises. -/
def lmFail : LangModel :=
  { isLoaded := true, loadResult := .ok (),
    generate := fun _ => .error (.backendError (txt "boom")) }

/-- C8, counterexample: when the generation call fails, `send_message`
surfaces the failure, but the persisted conversation is NOT left with the
turn's user message retained: the repository is exactly as before the call,
and the stored conversation still has zero messages (the appended user
message lived only in the discarded working copy). -/
theorem c8_counterexample :
    send_message lmFail repo0 (txt "c") (txt "hello") (txt "u1") 5 0 =
      (.error (.backendError (txt "boom")), repo0) ∧
    get_conversation repo0 (txt "c") = .ok (some convEmptyC) ∧
    convEmptyC.messages.length = 0 := by decide

/-- C8, amended: if the generation backend call fails during `send_message`,
the failure surfaces to the caller unchanged and the repository is left
exactly as before the call — the user message appended in the working copy
is not persisted (rolled back with the copy); a retry nevertheless re-sends
the same context, because re-reading the conversation and appending the user
message afresh rebuilds a context with identical roles and contents
(identifiers and timestamps aside). -/
theorem c8_theorem :
    (∀ (lm : LangModel) (repo : Repo) (conversation_id user_message new_id : Str)
        (now : Nat) (elapsed : ℚ) (conversation : Conversation) (e : PyErr),
        get_conversation repo conversation_id = .ok (some conversation) →
        (if lm.isLoaded then Except.ok () else lm.loadResult) = Except.ok () →
        lm.generate (get_context_messages
            (add_message conversation (user_turn_message new_id user_message now) now) 10) =
          .error e →
        send_message lm repo conversation_id user_message new_id now elapsed = (.error e, repo)) ∧
    (∀ (conversation : Conversation) (user_message id1 id2 : Str) (t1 t2 : Nat),
        (get_context_messages
            (add_message conversation (user_turn_message id1 user_message t1) t1) 10).map
          (fun m => (m.role, m.content)) =
        (get_context_messages
            (add_message conversation (user_turn_message id2 user_message t2) t2) 10).map
          (fun m => (m.role, m.content))) := by
  constructor
  · intro lm repo conversation_id user_message new_id now elapsed conversation e hget hload hgen
    unfold send_message
    rw [hget]
    dsimp only
    rw [hload]
    dsimp only
    rw [hgen]
  · intro conversation user_message id1 id2 t1 t2
    simp only [get_context_messages, add_message]
    rw [map_pySliceLast, map_pySliceLast]
    simp [user_turn_message]

/-- Witness for C8: the failing backend run on the concrete repository
surfaces its error and leaves the repository untouched. -/
theorem c8_witness :
    send_message lmFail repo0 (txt "c") (txt "hello") (txt "u1") 5 0 =
      (.error (.backendError (txt "boom")), repo0) :=
  c8_theorem.1 lmFail repo0 (txt "c") (txt "hello") (txt "u1") 5 0 convEmptyC
    (.backendError (txt "boom")) (by decide) (by decide) (by decide)

/-- A decoded record whose message role value is outside the enum: valid
JSON with all keys present, but undeserializable. -/
def badRoleRaw : RawConversation :=
  { id := some (txt "bad"), title := some none, created_at := some (txt "0"),
    updated_at := some (txt "0"), metadata := none,
    messages := some [{ id := some (txt "m"), role := some (txt "bogus"),
                        content := some (txt "x"), timestamp := some (txt "0"),
                        metadata := none }] }

/-- A decoded record lacking its `id` key. -/
def missingKeyRaw : RawConversation :=
  { id := none, title := some none, created_at := some (txt "0"),
    updated_at := some (txt "0"), metadata := none, messages := some [] }

/-- C9, counterexample: a stored record that is valid JSON with all keys
present but an invalid role value is undeserializable, yet `get` raises the
`ValueError` from `MessageRole(...)` instead of reporting absence — only
`json.JSONDecodeError` and `KeyError` are caught. -/
theorem c9_counterexample :
    get_conversation [(txt "bad", StoredFile.record badRoleRaw)] (txt "bad") =
      .error .valueError ∧
    ¬ (get_conversation [(txt "bad", StoredFile.record badRoleRaw)] (txt "bad") =
        .ok none) := by decide

/-- Whether deserializing the stored file avoids the uncaught error kinds
(everything except `json.JSONDecodeError` and `KeyError`). -/
def scanSafe (sf : StoredFile) : Bool :=
  match parse_stored sf with
  | .error .valueError => false
  | .error (.backendError _) => false
  | _ => true

/-- C9, amended: `get` on an id with no stored record reports absence; so
does a record whose JSON cannot be decoded or whose decoded dictionary lacks
a required key — and a `list` scan skips such records, keeping the
deserializable ones in order. Records whose field values are invalid (for
example a role outside the enum) raise instead of reporting absence, in both
`get` and `list`. -/
theorem c9_theorem :
    (∀ (repo : Repo) (conversation_id : Str),
        repoLookup repo conversation_id = none →
        get_conversation repo conversation_id = .ok none) ∧
    (∀ (repo : Repo) (conversation_id : Str),
        repoLookup repo conversation_id = some .badJSON →
        get_conversation repo conversation_id = .ok none) ∧
    (∀ (repo : Repo) (conversation_id : Str) (r : RawConversation),
        repoLookup repo conversation_id = some (.record r) →
        dict_to_conversation r = .error .keyError →
        get_conversation repo conversation_id = .ok none) ∧
    (∀ (repo : Repo) (limit : Nat),
        (∀ e ∈ repo.take limit, scanSafe e.2 = true) →
        list_conversations repo limit =
          .ok ((repo.take limit).filterMap (fun e => (parse_stored e.2).toOption))) := by
  refine ⟨?_, ?_, ?_, ?_⟩
  · intro repo cid h
    unfold get_conversation
    rw [h]
  · intro repo cid h
    unfold get_conversation
    rw [h]
    rfl
  · intro repo cid r h hr
    unfold get_conversation
    rw [h]
    dsimp only [parse_stored]
    rw [hr]
  · intro repo limit h
    unfold list_conversations
    revert h
    generalize repo.take limit = l
    intro h
    induction l with
    | nil => rfl
    | cons e rest ih =>
      have he : scanSafe e.2 = true := h e (by simp)
      have hrest : ∀ x ∈ rest, scanSafe x.2 = true := fun x hx => h x (by simp [hx])
      unfold listScan
      unfold scanSafe at he
      match hp : parse_stored e.2 with
      | .ok c =>
        rw [ih hrest]
        simp only [List.filterMap_cons, hp, Except.toOption]
        rfl
      | .error .jsonDecodeError =>
        rw [ih hrest]
        simp [List.filterMap_cons, hp, Except.toOption]
      | .error .keyError =>
        rw [ih hrest]
        simp [List.filterMap_cons, hp, Except.toOption]
      | .error .valueError => rw [hp] at he; simp at he
      | .error (.backendError s) => rw [hp] at he; simp at he

/-- A well-formed stored conversation. -/
def goodConv : Conversation :=
  { id := txt "g", messages := [], created_at := 0, updated_at := 0 }

/-- A directory mixing one good record, one undecodable file and one record
with a missing key. -/
def repoMix : Repo :=
  [(txt "g", StoredFile.record (conversation_to_dict goodConv)),
   (txt "bj", StoredFile.badJSON),
   (txt "mk", StoredFile.record missingKeyRaw)]

/-- Witness for C9: absence, undecodable JSON and a missing key all report
absence concretely, and the mixed scan succeeds, skipping the bad files. -/
theorem c9_witness :
    get_conversation [] (txt "nonexistent-id") = .ok none ∧
    get_conversation [(txt "bj", StoredFile.badJSON)] (txt "bj") = .ok none ∧
    get_conversation [(txt "mk", StoredFile.record missingKeyRaw)] (txt "mk") = .ok none ∧
    list_conversations repoMix 50 =
      .ok ((repoMix.take 50).filterMap (fun e => (parse_stored e.2).toOption)) :=
  ⟨c9_theorem.1 [] (txt "nonexistent-id") (by decide),
   c9_theorem.2.1 [(txt "bj", StoredFile.badJSON)] (txt "bj") (by decide),
   c9_theorem.2.2.1 [(txt "mk", StoredFile.record missingKeyRaw)] (txt "mk") missingKeyRaw
     (by decide) (by decide),
   c9_theorem.2.2.2 repoMix 50 (by decide)⟩

/-- The fuelled digit expansion does not depend on the fuel, as long as it
exceeds the argument. -/
theorem natDigitsRevAux_irrel (n : Nat) :
    ∀ f1 f2 : Nat, n < f1 → n < f2 → natDigitsRevAux n f1 = natDigitsRevAux n f2 := by
  induction n using Nat.strong_induction_on with
  | _ n ih =>
    intro f1 f2 h1 h2
    match f1, h1 with
    | g1 + 1, h1 =>
      match f2, h2 with
      | g2 + 1, h2 =>
        unfold natDigitsRevAux
        by_cases hn : n < 10
        · simp [hn]
        · simp only [hn, if_false]
          have hden : n / 10 < n := Nat.div_lt_self (by omega) (by omega)
          rw [ih (n / 10) hden g1 g2 (by omega) (by omega)]

/-- The recurrence satisfied by the digit expansion. -/
theorem natDigitsRev_eq (n : Nat) :
    natDigitsRev n = if n < 10 then [n] else n % 10 :: natDigitsRev (n / 10) := by
  unfold natDigitsRev
  conv_lhs => unfold natDigitsRevAux
  by_cases hn : n < 10
  · simp [hn]
  · simp only [hn, if_false]
    have hden : n / 10 < n := Nat.div_lt_self (by omega) (by omega)
    rw [natDigitsRevAux_irrel (n / 10) n (n / 10 + 1) (by omega) (by omega)]

/-- Every produced digit is below ten. -/
theorem natDigitsRev_lt (n : Nat) : ∀ d ∈ natDigitsRev n, d < 10 := by
  induction n using Nat.strong_induction_on with
  | _ n ih =>
    rw [natDigitsRev_eq]
    by_cases hn : n < 10
    · simp [hn]
    · simp only [hn, if_false]
      intro d hd
      rcases List.mem_cons.mp hd with h | h
      · omega
      · exact ih (n / 10) (Nat.div_lt_self (by omega) (by omega)) d h

/-- A digit expansion is never empty. -/
theorem natDigitsRev_ne_nil (n : Nat) : natDigitsRev n ≠ [] := by
  rw [natDigitsRev_eq]
  by_cases hn : n < 10 <;> simp [hn]

/-- Rendering and reading back one digit. -/
theorem charDigitVal_digitChar (d : Nat) (h : d < 10) :
    charDigitVal (digitChar d) = some d := by
  interval_cases d <;> decide

/-- Parsing a rendered digit list accumulates its value. -/
theorem parseNatAux_digits :
    ∀ (ds : List Nat) (acc : Nat), (∀ d ∈ ds, d < 10) →
      parseNatAux acc (ds.map digitChar) =
        some (ds.foldl (fun a d => a * 10 + d) acc) := by
  intro ds
  induction ds with
  | nil => intro acc _; rfl
  | cons d rest ih =>
    intro acc h
    have hd : d < 10 := h d (by simp)
    simp only [List.map_cons, parseNatAux, charDigitVal_digitChar d hd, List.foldl_cons]
    exact ih (acc * 10 + d) (fun x hx => h x (by simp [hx]))

/-- The digit fold recovers the rendered number. -/
theorem foldl_digits_rev (n : Nat) :
    ∀ acc : Nat,
      ((natDigitsRev n).reverse).foldl (fun a d => a * 10 + d) acc =
        acc * 10 ^ (natDigitsRev n).length + n := by
  induction n using Nat.strong_induction_on with
  | _ n ih =>
    intro acc
    rw [natDigitsRev_eq]
    by_cases hn : n < 10
    · simp [hn]
    · simp only [hn, if_false, List.reverse_cons, List.foldl_append, List.length_cons]
      have hden : n / 10 < n := Nat.div_lt_self (by omega) (by omega)
      rw [ih (n / 10) hden acc]
      have hmod : 10 * (n / 10) + n % 10 = n := Nat.div_add_mod n 10
      have hpow : 10 ^ ((natDigitsRev (n / 10)).length + 1) =
          10 ^ (natDigitsRev (n / 10)).length * 10 := pow_succ 10 _
      rw [hpow]
      have hexp : (acc * 10 ^ (natDigitsRev (n / 10)).length + n / 10) * 10 + n % 10 =
          acc * (10 ^ (natDigitsRev (n / 10)).length * 10) + (10 * (n / 10) + n % 10) := by
        ring
      simp only [List.foldl_cons, List.foldl_nil]
      rw [hexp, hmod]

/-- Reading back a rendered instant succeeds and returns it. -/
theorem fromisoformat_isoformat (t : Nat) : fromisoformat (isoformat t) = .ok t := by
  unfold fromisoformat isoformat
  have hne : ((natDigitsRev t).reverse.map digitChar).isEmpty = false := by
    rw [List.isEmpty_eq_false_iff_exists_mem]
    have hnil := natDigitsRev_ne_nil t
    match hd : natDigitsRev t, hnil with
    | d :: rest, _ => exact ⟨digitChar d, by simp⟩
  rw [hne]
  simp only [Bool.false_eq_true, if_false]
  rw [parseNatAux_digits ((natDigitsRev t).reverse) 0
    (fun d hd => natDigitsRev_lt t d (List.mem_reverse.mp hd))]
  rw [foldl_digits_rev t 0]
  simp

/-- Binding a successful `Except` computation applies the continuation. -/
theorem ok_bind {ε α β : Type} (a : α) (f : α → Except ε β) :
    (Except.ok (ε := ε) a >>= f) = f a := rfl

/-- Serializing and reading back a role. -/
theorem parseRole_value (r : MessageRole) : parseRole r.value = .ok r := by
  cases r <;> rfl

/-- Serializing and reading back one message. -/
theorem dict_to_message_roundtrip (m : Message) :
    dict_to_message (message_to_dict m) = .ok m := by
  unfold dict_to_message message_to_dict
  simp only [getKey, ok_bind, parseRole_value, fromisoformat_isoformat]

/-- Serializing and reading back a message list. -/
theorem messagesFromRaw_roundtrip (msgs : List Message) :
    messagesFromRaw (msgs.map message_to_dict) = .ok msgs := by
  induction msgs with
  | nil => rfl
  | cons m rest ih =>
    simp only [List.map_cons, messagesFromRaw, dict_to_message_roundtrip, ok_bind, ih]

/-- Serializing and reading back a whole conversation. -/
theorem dict_to_conversation_roundtrip (c : Conversation) :
    dict_to_conversation (conversation_to_dict c) = .ok c := by
  unfold dict_to_conversation conversation_to_dict
  simp only [getKey, ok_bind, messagesFromRaw_roundtrip, fromisoformat_isoformat]

/-- After a save, the directory holds exactly one file named after the
conversation id: the file just written. -/
theorem save_filter_id (repo : Repo) (c : Conversation) :
    (save_conversation repo c).filter (fun e => e.1 == c.id) =
      [(c.id, StoredFile.record (conversation_to_dict c))] := by
  unfold save_conversation
  rw [List.filter_cons]
  have hid : (((c.id, StoredFile.record (conversation_to_dict c)) : Str × StoredFile).1 == c.id)
      = true := by simp
  simp only [hid, if_true]
  suffices h : ∀ l : Repo,
      (l.filter (fun e => !(e.1 == c.id))).filter (fun e => e.1 == c.id) = [] by
    simp [h]
  intro l
  induction l with
  | nil => rfl
  | cons e rest ih =>
    by_cases he : (e.1 == c.id) = true
    · simp [List.filter_cons, he, ih]
    · simp [List.filter_cons, he, ih]

/-- Storing twice under the same key from an empty directory leaves exactly
the second record (the deterministic id makes the second save overwrite the
first). -/
theorem store2_eq (k v1 v2 : Str) (c1 c2 : Option Str) (t1 t2 : Nat) :
    store_memory (store_memory [] k v1 c1 t1) k v2 c2 t2 =
      [(txt "memory_" ++ k,
        StoredFile.record (conversation_to_dict (memory_conversation k v2 c2 t2)))] := by
  unfold store_memory save_conversation
  simp [memory_conversation, List.filter_cons]

/-- The empty needle starts every string. -/
theorem pyStartsWith_nil (hay : Str) : pyStartsWith hay [] = true := by
  cases hay <;> rfl

/-- A string starts with itself. -/
theorem pyStartsWith_append (x b : Str) : pyStartsWith (x ++ b) x = true := by
  induction x with
  | nil => exact pyStartsWith_nil b
  | cons c cs ih => simp [pyStartsWith, ih]

/-- A string occurs as a substring wherever it is spliced in. -/
theorem pyContains_middle (a x b : Str) : pyContains (a ++ (x ++ b)) x = true := by
  induction a with
  | nil =>
    unfold pyContains
    simp [pyStartsWith_append]
  | cons c cs ih =>
    rw [show ((c :: cs) ++ (x ++ b)) = c :: (cs ++ (x ++ b)) from rfl]
    unfold pyContains
    by_cases hs : pyStartsWith (c :: (cs ++ (x ++ b))) x
    · simp [hs]
    · simp [hs, ih]

/-- Retrieval over a directory holding one memory-tagged record whose
single message matches the query returns exactly that message content. -/
theorem retrieve_single_general (cid : Str) (mc : Conversation) (q : Str)
    (hmeta : mc.metadata = some [(txt "type", PyVal.vStr (txt "memory"))])
    (msg : Message) (hmsgs : mc.messages = [msg])
    (mm : Meta) (hmm : msg.metadata = some mm)
    (hmm_ne : mm.isEmpty = false)
    (hmm_type : (metaGet mm (txt "type") == some (PyVal.vStr (txt "memory"))) = true)
    (hmatch : pyContains (pyLower msg.content) (pyLower q) = true) :
    retrieve_memories [(cid, StoredFile.record (conversation_to_dict mc))] q =
      .ok [msg.content] := by
  have hscan : listScan [(cid, StoredFile.record (conversation_to_dict mc))] = .ok [mc] := by
    unfold listScan
    rw [show parse_stored (StoredFile.record (conversation_to_dict mc)) = .ok mc from
      dict_to_conversation_roundtrip mc]
    rfl
  unfold retrieve_memories list_conversations
  rw [show List.take 50 [(cid, StoredFile.record (conversation_to_dict mc))] =
      [(cid, StoredFile.record (conversation_to_dict mc))] from rfl]
  rw [hscan]
  dsimp only
  rw [List.foldl_cons, List.foldl_nil, hmeta]
  dsimp only
  rw [show ([(txt "type", PyVal.vStr (txt "memory"))] : Meta).isEmpty = false from rfl]
  rw [if_neg Bool.false_ne_true]
  rw [show (metaGet [(txt "type", PyVal.vStr (txt "memory"))] (txt "type") ==
      some (PyVal.vStr (txt "memory"))) = true from rfl]
  rw [if_pos rfl]
  rw [hmsgs, List.foldl_cons, List.foldl_nil, hmm]
  dsimp only
  rw [hmm_ne, if_neg Bool.false_ne_true]
  rw [hmm_type, if_pos rfl]
  rw [hmatch, if_pos rfl]
  rfl

/-- Retrieval by key over the directory holding one stored memory record
for that key returns exactly its content. -/
theorem retrieve_single (k v : Str) (c : Option Str) (t : Nat) :
    retrieve_memories
        [(txt "memory_" ++ k,
          StoredFile.record (conversation_to_dict (memory_conversation k v c t)))] k =
      .ok [txt "MEMORY: " ++ k ++ txt " = " ++ v] := by
  have hcont : pyContains (pyLower (txt "MEMORY: " ++ k ++ txt " = " ++ v)) (pyLower k) = true := by
    simp only [pyLower, List.map_append, List.append_assoc]
    exact pyContains_middle _ _ _
  exact retrieve_single_general (txt "memory_" ++ k) (memory_conversation k v c t) k rfl
    _ rfl _ rfl rfl rfl hcont

/-- Memory contents built from distinct values are distinct. -/
theorem memory_content_ne (k v1 v2 : Str) (h : v1 ≠ v2) :
    ¬ (txt "MEMORY: " ++ k ++ txt " = " ++ v2 = txt "MEMORY: " ++ k ++ txt " = " ++ v1) := by
  intro hc
  apply h
  simp only [List.append_assoc] at hc
  exact (List.append_cancel_left (List.append_cancel_left (List.append_cancel_left hc))).symm

/-- C10: the memory-store surface resolves duplicate keys as latest-wins.
For every starting directory and key, storing `v1` then `v2` under the key
leaves exactly one persisted record named `memory_{key}` — the one built
from `v2` (the record id is derived deterministically from the key, so the
second save overwrites the first) — and, from an empty store, a subsequent
retrieve matching the key returns exactly the content built from `v2`,
which differs from the `v1` content whenever `v1` differs from `v2`. -/
theorem c10_theorem :
    (∀ (repo : Repo) (key v1 v2 : Str) (c1 c2 : Option Str) (t1 t2 : Nat),
        (store_memory (store_memory repo key v1 c1 t1) key v2 c2 t2).filter
            (fun e => e.1 == txt "memory_" ++ key) =
          [(txt "memory_" ++ key,
            StoredFile.record (conversation_to_dict (memory_conversation key v2 c2 t2)))]) ∧
    (∀ (key v1 v2 : Str) (c1 c2 : Option Str) (t1 t2 : Nat), v1 ≠ v2 →
        retrieve_memories (store_memory (store_memory [] key v1 c1 t1) key v2 c2 t2) key =
          .ok [txt "MEMORY: " ++ key ++ txt " = " ++ v2] ∧
        ¬ (txt "MEMORY: " ++ key ++ txt " = " ++ v2 =
            txt "MEMORY: " ++ key ++ txt " = " ++ v1)) := by
  constructor
  · intro repo key v1 v2 c1 c2 t1 t2
    exact save_filter_id (store_memory repo key v1 c1 t1) (memory_conversation key v2 c2 t2)
  · intro key v1 v2 c1 c2 t1 t2 hne
    rw [store2_eq]
    exact ⟨retrieve_single key v2 c2 t2, memory_content_ne key v1 v2 hne⟩

/-- Witness for C10: storing "desk" then "drawer" under "wallet" leaves one
record, and retrieval returns the "drawer" content. -/
theorem c10_witness :
    (store_memory (store_memory [] (txt "wallet") (txt "desk") none 0)
        (txt "wallet") (txt "drawer") none 1).filter
        (fun e => e.1 == txt "memory_" ++ txt "wallet") =
      [(txt "memory_" ++ txt "wallet",
        StoredFile.record (conversation_to_dict
          (memory_conversation (txt "wallet") (txt "drawer") none 1)))] ∧
    retrieve_memories (store_memory (store_memory [] (txt "wallet") (txt "desk") none 0)
        (txt "wallet") (txt "drawer") none 1) (txt "wallet") =
      .ok [txt "MEMORY: " ++ txt "wallet" ++ txt " = " ++ txt "drawer"] :=
  ⟨c10_theorem.1 [] (txt "wallet") (txt "desk") (txt "drawer") none none 0 1,
   (c10_theorem.2 (txt "wallet") (txt "desk") (txt "drawer") none none 0 1 (by decide)).1⟩
